import Mathlib

/-!
# Verification of the rust-actix-tasks request pipeline

A shallow embedding of `src/main.rs`: the task data model, the auth gate
(`ensure_auth`), the token issuer (`login`), and the five task handlers
(`create_task`, `list_tasks`, `get_task`, `update_task`, `delete_task`),
together with theorems checking the natural-language specification against
this embedding.

Modelling conventions:
* The SQLite table of tasks is a `Store`: the list of rows in insertion
  order plus the next rowid the store will assign. `ORDER BY id DESC` is
  an insertion sort by descending id; `WHERE id = ?` lookups are `find?`;
  `DELETE` is `filter`; the `RETURNING` clause is the returned `Task`.
* JWT encode/decode (the `jsonwebtoken` crate) is abstracted: a token is
  either a payload signed with a particular secret, or an arbitrary string
  that is not a well-formed token; `decode` succeeds exactly when the
  signing secret matches the verification secret and the expiry has not
  passed at validation time.
* Clock reads (`Utc::now`) and the store-assigned `created_at` timestamp
  are explicit parameters.
* Rust's `?` operator on `Result<_, AppError>` becomes explicit matching
  on `Except AppError`.
-/

deriving instance DecidableEq for Except

namespace ActixTasks

/-- A persisted task row (struct `Task` in `main.rs`). -/
structure Task where
  id : Int
  title : String
  completed : Bool
  created_at : String
deriving Repr, DecidableEq

/-- The SQLite `tasks` table: rows in insertion order, plus the next
rowid the store will assign (SQLite rowids start at 1). -/
structure Store where
  rows : List Task
  nextId : Int
deriving Repr, DecidableEq

/-- The error enum `AppError` in `main.rs`. -/
inductive AppError where
  | BadRequest (msg : String)
  | NotFound
  | Unauthorized
  | Internal (msg : String)
deriving Repr, DecidableEq

/-- The `ResponseError` impl: HTTP status for each error kind. -/
def AppError.status : AppError → Nat
  | .BadRequest _ => 400
  | .NotFound => 404
  | .Unauthorized => 401
  | .Internal _ => 500

/-- JWT claims (struct `Claims` in `main.rs`): subject and expiry in
epoch seconds. -/
structure Claims where
  sub : String
  exp : Nat
deriving Repr, DecidableEq

/-- An abstract JWT: either a payload signed under some secret (the output
of `jsonwebtoken::encode` with that secret), or an arbitrary string that is
not a well-formed signed token. -/
inductive Token where
  | signed (claims : Claims) (secret : String)
  | garbage (s : String)
deriving Repr, DecidableEq

/-- `jsonwebtoken::encode(&Header::default(), claims, secret)`. -/
def encodeToken (secret : String) (c : Claims) : Token :=
  .signed c secret

/-- `jsonwebtoken::decode::<Claims>` with `Validation::new(HS256)` and
`validate_exp = true`: succeeds iff the token was signed under the
verification secret and its expiry has not passed at time `now`. -/
def decodeToken (now : Nat) (secret : String) : Token → Option Claims
  | .signed c s => if s = secret ∧ now ≤ c.exp then some c else none
  | .garbage _ => none

/-- The value of a request's `Authorization` header: either a well-formed
`Bearer <token>` value, or any other string (no `Bearer ` prefix, so
`strip_prefix` fails on it). -/
inductive AuthHeader where
  | bearer (t : Token)
  | malformed (s : String)
deriving Repr, DecidableEq

/-- The parts of an `HttpRequest` the pipeline inspects: the method and
the optional `Authorization` header. -/
structure Request where
  method : String
  authHeader : Option AuthHeader
deriving Repr, DecidableEq

/-- Struct `AppState` in `main.rs` (minus the connection pool, which the
`Store` stands in for). -/
structure AppState where
  jwt_enabled : Bool
  jwt_secret : Option String
  read_only_without_jwt : Bool
deriving Repr, DecidableEq

/-- How `main` builds the state: `jwt_enabled = jwt_secret.is_some()`. -/
def mkAppState (jwt_secret : Option String) (read_only_without_jwt : Bool) :
    AppState :=
  { jwt_enabled := jwt_secret.isSome, jwt_secret, read_only_without_jwt }

/-- `ensure_auth` in `main.rs`: pass when JWT is disabled; pass GETs when
the read-only flag is set; otherwise demand a `Bearer` token that decodes
under the configured secret. (`jwt_secret.as_ref().expect("jwt enabled")`
is modelled by `getD ""`; `main` guarantees the secret is present whenever
`jwt_enabled` holds.) -/
def ensure_auth (now : Nat) (data : AppState) (req : Request) :
    Except AppError Unit :=
  if !data.jwt_enabled then .ok ()
  else if data.read_only_without_jwt && req.method == "GET" then .ok ()
  else
    match req.authHeader with
    | some (.bearer t) =>
      match decodeToken now (data.jwt_secret.getD "") t with
      | some _ => .ok ()
      | none => .error .Unauthorized
    | some (.malformed _) => .error .Unauthorized
    | none => .error .Unauthorized

/-- Request body of `POST /api/login`. -/
structure LoginBody where
  username : String
  password : String
deriving Repr, DecidableEq

/-- The two success-path responses of the `login` handler: the 400 JSON
body returned (as an `Ok`) when JWT is not enabled, and the 200 body
carrying the token and `expires_in_hours`. -/
inductive LoginResponse where
  | badRequestNotEnabled
  | success (token : Token) (expires_in_hours : Nat)
deriving Repr, DecidableEq

/-- HTTP status of a login handler outcome (the `Ok` branches carry their
status directly; `Err` goes through `AppError.status`). -/
def loginStatus : Except AppError LoginResponse → Nat
  | .ok .badRequestNotEnabled => 400
  | .ok (.success _ _) => 200
  | .error e => e.status

/-- Rust's `str::trim().is_empty()`: a string trims to the empty string
exactly when every one of its characters is whitespace. -/
def trimIsEmpty (s : String) : Bool :=
  s.data.all Char.isWhitespace

/-- The `login` handler: 400 when JWT is disabled; 401 when either
credential trims to empty; otherwise a token signed with the configured
secret, carrying `sub = username` and `exp = now + 12 hours`. -/
def login (now : Nat) (data : AppState) (body : LoginBody) :
    Except AppError LoginResponse :=
  if !data.jwt_enabled then .ok .badRequestNotEnabled
  else if trimIsEmpty body.username || trimIsEmpty body.password then
    .error .Unauthorized
  else
    let exp := now + 12 * 3600
    let claims : Claims := { sub := body.username, exp }
    .ok (.success (encodeToken (data.jwt_secret.getD "") claims) 12)

/-- Request body of `POST /api/tasks` (struct `CreateTask`). -/
structure CreateTask where
  title : String
deriving Repr, DecidableEq

/-- Request body of `PUT /api/tasks/{id}` (struct `UpdateTask`). -/
structure UpdateTask where
  title : Option String
  completed : Option Bool
deriving Repr, DecidableEq

/-- `CreateTask::validate()`: the `length(min = 1)` check on `title`
(the `validator` crate counts chars, so any non-empty string passes). -/
def validateCreate (p : CreateTask) : Except AppError Unit :=
  if 1 ≤ p.title.length then .ok ()
  else .error (.BadRequest "title cannot be empty")

/-- `UpdateTask::validate()`: `length(min = 1)` on `title`, skipped when
the field is absent; `completed` is unvalidated. -/
def validateUpdate (p : UpdateTask) : Except AppError Unit :=
  match p.title with
  | some t =>
    if 1 ≤ t.length then .ok ()
    else .error (.BadRequest "title cannot be empty")
  | none => .ok ()

/-- `create_task`: auth, then validation, then
`INSERT INTO tasks (title, completed) VALUES (?, false) RETURNING ...`.
`createdAt` is the store-assigned creation timestamp. -/
def create_task (now : Nat) (createdAt : String) (data : AppState)
    (req : Request) (db : Store) (payload : CreateTask) :
    Except AppError (Store × Task) :=
  match ensure_auth now data req with
  | .error e => .error e
  | .ok () =>
    match validateCreate payload with
    | .error e => .error e
    | .ok () =>
      let t : Task :=
        { id := db.nextId, title := payload.title, completed := false
          created_at := createdAt }
      .ok ({ rows := db.rows ++ [t], nextId := db.nextId + 1 }, t)

/-- Descending-id comparison used by `ORDER BY id DESC`. -/
def idDesc (a b : Task) : Prop := b.id ≤ a.id

instance : DecidableRel idDesc := fun a b => by
  unfold idDesc; infer_instance

instance : IsTotal Task idDesc :=
  ⟨fun a b => le_total b.id a.id⟩

instance : IsTrans Task idDesc :=
  ⟨fun _ _ _ h1 h2 => le_trans h2 h1⟩

/-- `list_tasks`: `SELECT ... FROM tasks ORDER BY id DESC`. Note the
handler takes no `HttpRequest` and performs no auth check. -/
def list_tasks (db : Store) : Except AppError (List Task) :=
  .ok (db.rows.insertionSort idDesc)

/-- `SELECT ... FROM tasks WHERE id = ?` via `fetch_optional`. -/
def findTask (db : Store) (id : Int) : Option Task :=
  db.rows.find? (fun t => t.id = id)

/-- `get_task`: 404 when the id has no row, 200 with the row otherwise.
Note the handler takes no `HttpRequest` and performs no auth check. -/
def get_task (db : Store) (id : Int) : Except AppError Task :=
  match findTask db id with
  | some t => .ok t
  | none => .error .NotFound

/-- `update_task`: auth, validation, read the current row (404 when
absent), merge each supplied field over the current value, then
`UPDATE tasks SET title = ?, completed = ? WHERE id = ? RETURNING ...`. -/
def update_task (now : Nat) (data : AppState) (req : Request) (db : Store)
    (id : Int) (payload : UpdateTask) : Except AppError (Store × Task) :=
  match ensure_auth now data req with
  | .error e => .error e
  | .ok () =>
    match validateUpdate payload with
    | .error e => .error e
    | .ok () =>
      match findTask db id with
      | none => .error .NotFound
      | some current =>
        let merged : Task :=
          { current with
            title := payload.title.getD current.title
            completed := payload.completed.getD current.completed }
        .ok ({ db with
               rows := db.rows.map (fun t => if t.id = id then merged else t) },
             merged)

/-- `delete_task`: auth, then `DELETE FROM tasks WHERE id = ?`; 404 when
zero rows were affected, 204 (modelled as `ok`) otherwise. -/
def delete_task (now : Nat) (data : AppState) (req : Request) (db : Store)
    (id : Int) : Except AppError Store :=
  match ensure_auth now data req with
  | .error e => .error e
  | .ok () =>
    if (db.rows.filter (fun t => !(t.id = id : Bool))).length = db.rows.length
    then .error .NotFound
    else .ok { db with rows := db.rows.filter (fun t => !(t.id = id : Bool)) }

/-- The table contents after a handler outcome: the new store on success,
the untouched store on failure (a failing handler never reached, or was
rejected by, the write). -/
def storeAfter {α : Type} (db : Store) : Except AppError (Store × α) → Store
  | .ok (db', _) => db'
  | .error _ => db

/-- The spec's pure auth-decision function
`requiresAuth(hasSigningSecret, readOnlyWithoutAuthFlag, httpMethod)`,
written from §4.2's words, to compare against `ensure_auth`. -/
def requiresAuth (hasSigningSecret readOnlyWithoutAuthFlag : Bool)
    (httpMethod : String) : Bool :=
  if !hasSigningSecret then false
  else if readOnlyWithoutAuthFlag && httpMethod == "GET" then false
  else true

/-! ## Theorems -/

/-- C1: the spec gates `GET /api/tasks` and `GET /api/tasks/{id}` per
policy (401 without a valid token when a secret is configured and the
read-only flag is false), and `ensure_auth` would indeed reject such a
request — but neither `list_tasks` nor `get_task` ever invokes
`ensure_auth` (they do not even take the `HttpRequest`), so both read the
store and answer 200 to the tokenless request the policy rejects. -/
theorem get_handlers_bypass_auth_gate :
    ensure_auth 0 (mkAppState (some "secret") false)
        { method := "GET", authHeader := none } = .error .Unauthorized ∧
    list_tasks { rows := [{ id := 1, title := "a", completed := false,
                            created_at := "t" }], nextId := 2 } =
      .ok [{ id := 1, title := "a", completed := false, created_at := "t" }] ∧
    get_task { rows := [{ id := 1, title := "a", completed := false,
                          created_at := "t" }], nextId := 2 } 1 =
      .ok { id := 1, title := "a", completed := false, created_at := "t" } := by
  refine ⟨rfl, ?_, rfl⟩
  simp [list_tasks, List.insertionSort]

/-- C2 counterexample: a create request whose title is the single space
`" "` — whitespace-only — is not rejected: the `length(min = 1)` check
counts one character, so the row is persisted. -/
theorem create_whitespace_title_persisted :
    trimIsEmpty " " = true ∧
    create_task 0 "t0" (mkAppState none true)
        { method := "POST", authHeader := none } { rows := [], nextId := 1 }
        { title := " " } =
      .ok ({ rows := [{ id := 1, title := " ", completed := false,
                        created_at := "t0" }], nextId := 2 },
           { id := 1, title := " ", completed := false, created_at := "t0" }) := by
  exact ⟨by decide, rfl⟩

/-- C2 (amended): when the auth gate passes the request, a create whose
title is the empty string fails with `BadRequest` (400) before any store
call and the stored task set is unchanged; a whitespace-only but non-empty
title passes validation (see the counterexample). -/
theorem create_empty_title_rejected (now : Nat) (ts : String)
    (st : AppState) (req : Request) (db : Store) (p : CreateTask)
    (hauth : ensure_auth now st req = .ok ()) (ht : p.title = "") :
    create_task now ts st req db p =
      .error (.BadRequest "title cannot be empty") ∧
    (create_task now ts st req db p).isOk = false ∧
    storeAfter db (create_task now ts st req db p) = db ∧
    AppError.status (.BadRequest "title cannot be empty") = 400 := by
  have hv : validateCreate p = .error (.BadRequest "title cannot be empty") := by
    simp [validateCreate, ht]
  simp [create_task, hauth, hv, storeAfter, Except.isOk, Except.toBool,
    AppError.status]

/-- Witness for C2's amended theorem at a concrete input. -/
theorem create_empty_title_rejected_witness :
    create_task 0 "t0" (mkAppState none true)
        { method := "POST", authHeader := none } { rows := [], nextId := 1 }
        { title := "" } =
      .error (.BadRequest "title cannot be empty") :=
  (create_empty_title_rejected 0 "t0" (mkAppState none true)
    { method := "POST", authHeader := none } { rows := [], nextId := 1 }
    { title := "" } rfl rfl).1

/-- C10: on an open server (no signing secret configured) the auth gate
never consults the `Authorization` header: any two requests — whatever
their headers, methods or arrival times — both pass, with identical
outcomes, so an invalid token never causes a 401. -/
theorem ensure_auth_open_ignores_header (now₁ now₂ : Nat) (flag : Bool)
    (r₁ r₂ : Request) :
    ensure_auth now₁ (mkAppState none flag) r₁ = .ok () ∧
    ensure_auth now₁ (mkAppState none flag) r₁ =
      ensure_auth now₂ (mkAppState none flag) r₂ := by
  simp [ensure_auth, mkAppState]

/-- C3: `ensure_auth` implements the spec's decision function: when
`requiresAuth` says no (no secret, or read-only flag with a GET) the
request passes; when it says yes, the request passes exactly when it
carries a `Bearer` token signed under the configured secret whose expiry
has not passed; and every failure is `Unauthorized`. -/
theorem ensure_auth_decision (now : Nat) (st : AppState) (req : Request) :
    (requiresAuth st.jwt_enabled st.read_only_without_jwt req.method = false →
       ensure_auth now st req = .ok ()) ∧
    (requiresAuth st.jwt_enabled st.read_only_without_jwt req.method = true →
       (ensure_auth now st req = .ok () ↔
         ∃ c, req.authHeader =
             some (.bearer (.signed c (st.jwt_secret.getD ""))) ∧
           now ≤ c.exp)) ∧
    (ensure_auth now st req = .ok () ∨
     ensure_auth now st req = .error .Unauthorized) := by
  unfold ensure_auth requiresAuth
  by_cases h1 : st.jwt_enabled
  · by_cases h2 : st.read_only_without_jwt && req.method == "GET"
    · simp [h1, h2]
    · match hah : req.authHeader with
      | none => simp [h1, h2]
      | some (.malformed s) => simp [h1, h2]
      | some (.bearer (.garbage s)) => simp [h1, h2, decodeToken]
      | some (.bearer (.signed c s)) =>
        by_cases hs : s = st.jwt_secret.getD ""
        · by_cases hexp : now ≤ c.exp
          · simp [h1, h2, decodeToken, hs, hexp]
          · simp [h1, h2, decodeToken, hs, hexp]
        · simp [h1, h2, decodeToken, hs]
  · simp [h1]

/-- Witness for C3 at concrete inputs: an open server passes a tokenless
request, and a gated request with a correctly signed, unexpired token
passes. -/
theorem ensure_auth_decision_witness :
    ensure_auth 7 (mkAppState none true)
      { method := "POST", authHeader := none } = .ok () ∧
    ensure_auth 7 (mkAppState (some "k") false)
      { method := "POST",
        authHeader := some (.bearer (.signed { sub := "u", exp := 9 } "k")) } =
      .ok () := by
  refine ⟨(ensure_auth_decision 7 (mkAppState none true)
      { method := "POST", authHeader := none }).1 (by decide), ?_⟩
  exact ((ensure_auth_decision 7 (mkAppState (some "k") false)
      { method := "POST",
        authHeader := some (.bearer (.signed { sub := "u", exp := 9 } "k")) }
    ).2.1 (by decide)).mpr ⟨{ sub := "u", exp := 9 }, rfl, by decide⟩

/-- C6: login returns 400 when no secret is configured; 401 when either
credential is empty or whitespace-only after trimming; otherwise 200 with
a token signed under the secret, `sub = username`, `exp = now + 12h`, and
`expires_in_hours = 12`. -/
theorem login_outcomes (now : Nat) (secret : String) (flag : Bool)
    (body : LoginBody) :
    (login now (mkAppState none flag) body = .ok .badRequestNotEnabled ∧
       loginStatus (login now (mkAppState none flag) body) = 400) ∧
    ((trimIsEmpty body.username || trimIsEmpty body.password) = true →
       login now (mkAppState (some secret) flag) body = .error .Unauthorized ∧
       loginStatus (login now (mkAppState (some secret) flag) body) = 401) ∧
    ((trimIsEmpty body.username || trimIsEmpty body.password) = false →
       login now (mkAppState (some secret) flag) body =
         .ok (.success (encodeToken secret
           { sub := body.username, exp := now + 12 * 3600 }) 12) ∧
       loginStatus (login now (mkAppState (some secret) flag) body) = 200) := by
  refine ⟨⟨by simp [login, mkAppState, loginStatus], ?_⟩, ?_, ?_⟩
  · simp [login, mkAppState, loginStatus]
  · intro h
    constructor
    · simp [login, mkAppState, h]
    · simp [login, mkAppState, h, loginStatus, AppError.status]
  · intro h
    rw [Bool.or_eq_false_iff] at h
    constructor
    · simp [login, mkAppState, h.1, h.2]
    · simp [login, mkAppState, h.1, h.2, loginStatus]

/-- Witness for C6 at concrete inputs: empty username gives 401; auth
disabled gives 400; good credentials give the 12-hour token. -/
theorem login_outcomes_witness :
    login 5 (mkAppState (some "s") true)
      { username := "", password := "pw" } = .error .Unauthorized ∧
    login 5 (mkAppState none true)
      { username := "alice", password := "pw" } = .ok .badRequestNotEnabled ∧
    login 5 (mkAppState (some "s") true)
      { username := "alice", password := "pw" } =
      .ok (.success (encodeToken "s" { sub := "alice", exp := 5 + 12 * 3600 })
        12) :=
  ⟨((login_outcomes 5 "s" true { username := "", password := "pw" }).2.1
      (by decide)).1,
   (login_outcomes 5 "s" true { username := "alice", password := "pw" }).1.1,
   ((login_outcomes 5 "s" true { username := "alice", password := "pw" }).2.2
      (by decide)).1⟩

/-- C5: a token issued by `login` under a configured secret passes the
auth gate on a gated request at any time strictly within 12 hours of
issuance, and is rejected with `Unauthorized` at any time after its
expiry. -/
theorem login_token_roundtrip (now : Nat) (secret : String) (flag : Bool)
    (body : LoginBody) (tok : Token) (method : String) (t₁ t₂ : Nat)
    (hlogin : login now (mkAppState (some secret) flag) body =
      .ok (.success tok 12))
    (hgated : requiresAuth true flag method = true)
    (hwithin : t₁ < now + 12 * 3600) (hafter : now + 12 * 3600 < t₂) :
    ensure_auth t₁ (mkAppState (some secret) flag)
      { method, authHeader := some (.bearer tok) } = .ok () ∧
    ensure_auth t₂ (mkAppState (some secret) flag)
      { method, authHeader := some (.bearer tok) } = .error .Unauthorized := by
  have htok : tok = .signed { sub := body.username, exp := now + 12 * 3600 }
      secret := by
    by_cases hcred : (trimIsEmpty body.username || trimIsEmpty body.password)
      = true
    · simp [login, mkAppState, hcred] at hlogin
    · rw [Bool.not_eq_true] at hcred
      simp [login, mkAppState, hcred, encodeToken] at hlogin
      exact hlogin.symm
  have hflag : (flag && method == "GET") = false := by
    by_contra hc
    rw [Bool.not_eq_false] at hc
    simp [requiresAuth, hc] at hgated
  subst htok
  refine ⟨?_, ?_⟩
  · simp [ensure_auth, mkAppState, hflag, decodeToken, Nat.le_of_lt hwithin]
  · simp [ensure_auth, mkAppState, hflag, decodeToken, Nat.not_le.mpr hafter]

/-- Witness for C5: the concrete login at time 0 yields the token with
expiry 43200; it passes at time 100 and is rejected at time 50000. -/
theorem login_token_roundtrip_witness :
    ensure_auth 100 (mkAppState (some "s") false)
      { method := "GET",
        authHeader := some (.bearer (.signed { sub := "alice", exp := 43200 }
          "s")) } = .ok () ∧
    ensure_auth 50000 (mkAppState (some "s") false)
      { method := "GET",
        authHeader := some (.bearer (.signed { sub := "alice", exp := 43200 }
          "s")) } = .error .Unauthorized :=
  login_token_roundtrip 0 "s" false { username := "alice", password := "pw" }
    (.signed { sub := "alice", exp := 43200 } "s") "GET" 100 50000
    (by decide) (by decide) (by decide) (by decide)

/-- A row lookup misses exactly when no stored row carries the id. -/
theorem findTask_none_iff (db : Store) (id : Int) :
    findTask db id = none ↔ ∀ t ∈ db.rows, ¬ t.id = id := by
  simp [findTask, List.find?_eq_none]

/-- When no row carries the id, `DELETE ... WHERE id = ?` affects zero
rows and the handler answers `NotFound`. -/
theorem delete_task_miss (now : Nat) (st : AppState) (req : Request)
    (db : Store) (id : Int) (hauth : ensure_auth now st req = .ok ())
    (hfind : findTask db id = none) :
    delete_task now st req db id = .error .NotFound := by
  have hfilter : db.rows.filter (fun t => !(t.id = id : Bool)) = db.rows := by
    apply List.filter_eq_self.mpr
    intro a ha
    simpa using (findTask_none_iff db id).mp hfind a ha
  simp [delete_task, hauth, hfilter]

/-- Shape of a successful delete: the surviving rows are exactly those
whose id differs, and the id counter is untouched. -/
theorem delete_task_ok_shape {now : Nat} {st : AppState} {req : Request}
    {db : Store} {id : Int} {db' : Store}
    (h : delete_task now st req db id = .ok db') :
    db'.rows = db.rows.filter (fun t => !(t.id = id : Bool)) ∧
    db'.nextId = db.nextId := by
  unfold delete_task at h
  split at h
  · exact absurd h (by simp)
  · split at h
    · exact absurd h (by simp)
    · simp only [Except.ok.injEq] at h
      exact ⟨by rw [← h], by rw [← h]⟩

/-- After filtering out an id, looking that id up misses. -/
theorem findTask_filter_out (rows : List Task) (id : Int) :
    (rows.filter (fun t => !(t.id = id : Bool))).find?
      (fun t => t.id = id) = none := by
  rw [List.find?_eq_none]
  intro x hx
  simpa using List.of_mem_filter hx

/-- C7: a missing id makes `get` answer `NotFound` (404) and `delete`
answer `NotFound` (zero rows affected); after a successful delete, a
subsequent `get` of that id answers `NotFound` and a second `delete`
answers `NotFound`. -/
theorem get_delete_not_found (now : Nat) (st : AppState) (req : Request)
    (db : Store) (id : Int)
    (hauth : ensure_auth now st req = .ok ()) :
    (findTask db id = none →
       get_task db id = .error .NotFound ∧
       delete_task now st req db id = .error .NotFound ∧
       AppError.status .NotFound = 404) ∧
    (∀ db', delete_task now st req db id = .ok db' →
       get_task db' id = .error .NotFound ∧
       delete_task now st req db' id = .error .NotFound) := by
  constructor
  · intro hfind
    exact ⟨by simp [get_task, hfind],
           delete_task_miss now st req db id hauth hfind, rfl⟩
  · intro db' hdel
    have hshape := delete_task_ok_shape hdel
    have hfind' : findTask db' id = none := by
      rw [findTask, hshape.1]
      exact findTask_filter_out db.rows id
    exact ⟨by simp [get_task, hfind'],
           delete_task_miss now st req db' id hauth hfind'⟩

/-- Witness for C7 at concrete inputs: deleting the only row makes the
following get and delete of that id answer `NotFound`. -/
theorem get_delete_not_found_witness :
    get_task { rows := [], nextId := 2 } 1 = .error .NotFound ∧
    delete_task 0 (mkAppState none true)
      { method := "DELETE", authHeader := none }
      { rows := [], nextId := 2 } 1 = .error .NotFound :=
  ((get_delete_not_found 0 (mkAppState none true)
      { method := "DELETE", authHeader := none }
      { rows := [{ id := 1, title := "a", completed := false,
                   created_at := "t" }], nextId := 2 } 1 (by decide)).2
    { rows := [], nextId := 2 } (by decide))

/-- Replacing every row carrying an id by a row that still carries it
leaves that row where the lookup finds it. -/
theorem find_replace_found (rows : List Task) (id : Int) (ret : Task)
    (hret : ret.id = id)
    (hfound : rows.find? (fun t => t.id = id) ≠ none) :
    (rows.map (fun t => if t.id = id then ret else t)).find?
      (fun t => t.id = id) = some ret := by
  induction rows with
  | nil => simp [List.find?] at hfound
  | cons a tl ih =>
    by_cases ha : a.id = id
    · simp [ha, hret]
    · have htl : tl.find? (fun t => t.id = id) ≠ none := by
        simpa [List.find?_cons_of_neg, ha] using hfound
      simpa [ha] using ih htl

/-- C4: when the auth gate and validation pass, updating an existing id
merges each supplied field over the current row — an omitted field keeps
its stored value — writes the merged row back (readable at the same id,
all other rows untouched), and returns it; updating a missing id answers
`NotFound` (404) and leaves the store unchanged. -/
theorem update_task_semantics (now : Nat) (st : AppState) (req : Request)
    (db : Store) (id : Int) (p : UpdateTask)
    (hauth : ensure_auth now st req = .ok ())
    (hval : validateUpdate p = .ok ()) :
    (∀ cur, findTask db id = some cur →
       ∃ db' ret, update_task now st req db id p = .ok (db', ret) ∧
         ret.id = cur.id ∧ ret.created_at = cur.created_at ∧
         ret.title = p.title.getD cur.title ∧
         ret.completed = p.completed.getD cur.completed ∧
         db'.rows = db.rows.map (fun t => if t.id = id then ret else t) ∧
         db'.nextId = db.nextId ∧
         findTask db' id = some ret) ∧
    (findTask db id = none →
       update_task now st req db id p = .error .NotFound ∧
       storeAfter db (update_task now st req db id p) = db ∧
       AppError.status .NotFound = 404) := by
  constructor
  · intro cur hcur
    have hcurid : cur.id = id := by
      have h2 := hcur
      rw [findTask] at h2
      simpa using List.find?_some h2
    refine ⟨⟨db.rows.map (fun t => if t.id = id then
        ⟨cur.id, p.title.getD cur.title, p.completed.getD cur.completed,
          cur.created_at⟩ else t), db.nextId⟩,
      ⟨cur.id, p.title.getD cur.title, p.completed.getD cur.completed,
        cur.created_at⟩,
      ?_, rfl, rfl, rfl, rfl, rfl, rfl, ?_⟩
    · simp [update_task, hauth, hval, hcur]
    · show findTask _ id = _
      rw [findTask]
      exact find_replace_found db.rows id _ hcurid
        (by rw [← findTask]; simp [hcur])
  · intro hmiss
    refine ⟨?_, ?_, rfl⟩
    · simp [update_task, hauth, hval, hmiss]
    · simp [update_task, hauth, hval, hmiss, storeAfter]

/-- Witness for C4 at a concrete input: completing task 1 without
supplying a title keeps the title and sets the flag. -/
theorem update_task_semantics_witness :
    ∃ db' ret,
      update_task 0 (mkAppState none true)
        { method := "PUT", authHeader := none }
        { rows := [{ id := 1, title := "a", completed := false,
                     created_at := "t" }], nextId := 2 }
        1 { title := none, completed := some true } = .ok (db', ret) ∧
      ret.title = "a" ∧ ret.completed = true := by
  obtain ⟨db', ret, heq, -, -, ht, hc, -, -, -⟩ :=
    (update_task_semantics 0 (mkAppState none true)
      { method := "PUT", authHeader := none }
      { rows := [{ id := 1, title := "a", completed := false,
                   created_at := "t" }], nextId := 2 }
      1 { title := none, completed := some true } (by decide) (by decide)).1
      { id := 1, title := "a", completed := false, created_at := "t" }
      (by decide)
  exact ⟨db', ret, heq, by simp [ht], by simp [hc]⟩

/-- A string of length at least one is not the empty string. -/
theorem ne_empty_of_one_le_length {s : String} (h : 1 ≤ s.length) :
    s ≠ "" := by
  intro habs
  rw [habs] at h
  exact absurd h (by decide)

/-- Shape of a successful create: the title passed validation, and the
new row — fresh id, `completed = false`, store-assigned timestamp — was
appended. -/
theorem create_task_ok_shape {now : Nat} {ts : String} {st : AppState}
    {req : Request} {db : Store} {p : CreateTask} {db' : Store} {t : Task}
    (h : create_task now ts st req db p = .ok (db', t)) :
    1 ≤ p.title.length ∧
    db'.rows = db.rows ++
      [{ id := db.nextId, title := p.title, completed := false,
         created_at := ts }] := by
  unfold create_task at h
  split at h
  · exact absurd h (by simp)
  · split at h
    · exact absurd h (by simp)
    · rename_i hv
      have hlen : 1 ≤ p.title.length := by
        by_contra hlt
        simp [validateCreate, hlt] at hv
      simp only [Except.ok.injEq, Prod.mk.injEq] at h
      exact ⟨hlen, by rw [← h.1]⟩

/-- Shape of a successful update: some current row was read, the
written-back row's title is the supplied title (validated non-empty) or
the current one, and only rows carrying the id were replaced. -/
theorem update_task_ok_shape {now : Nat} {st : AppState} {req : Request}
    {db : Store} {id : Int} {p : UpdateTask} {db' : Store} {t : Task}
    (h : update_task now st req db id p = .ok (db', t)) :
    ∃ cur ∈ db.rows,
      t.title = p.title.getD cur.title ∧
      (∀ s, p.title = some s → 1 ≤ s.length) ∧
      db'.rows = db.rows.map (fun x => if x.id = id then t else x) := by
  unfold update_task at h
  split at h
  · exact absurd h (by simp)
  · split at h
    · exact absurd h (by simp)
    · rename_i hv
      split at h
      · exact absurd h (by simp)
      · rename_i cur hcur
        have hmem : cur ∈ db.rows := by
          rw [findTask] at hcur
          exact List.mem_of_find?_eq_some hcur
        have hval : ∀ s, p.title = some s → 1 ≤ s.length := by
          intro s hs
          by_contra hlt
          simp [validateUpdate, hs, hlt] at hv
        simp only [Except.ok.injEq, Prod.mk.injEq] at h
        exact ⟨cur, hmem, by rw [← h.2], hval, by rw [← h.1, ← h.2]⟩

/-- The store states reachable from the empty table through the three
mutating handlers, at arbitrary times, configurations, requests and
bodies. -/
inductive Reachable : Store → Prop
  | init : Reachable ⟨[], 1⟩
  | create {now : Nat} {ts : String} {st : AppState} {req : Request}
      {db db' : Store} {p : CreateTask} {t : Task} :
      Reachable db → create_task now ts st req db p = .ok (db', t) →
      Reachable db'
  | update {now : Nat} {st : AppState} {req : Request} {db db' : Store}
      {id : Int} {p : UpdateTask} {t : Task} :
      Reachable db → update_task now st req db id p = .ok (db', t) →
      Reachable db'
  | delete {now : Nat} {st : AppState} {req : Request} {db db' : Store}
      {id : Int} :
      Reachable db → delete_task now st req db id = .ok db' →
      Reachable db'

/-- C8: every reachable store state contains only tasks with a non-empty
title — create and update only ever write validated or already-stored
titles, and delete only removes rows. -/
theorem reachable_titles_nonempty (db : Store) (h : Reachable db) :
    ∀ t ∈ db.rows, t.title ≠ "" := by
  induction h with
  | init => simp
  | @create now ts st req db0 db' p t hr heq ih =>
    obtain ⟨hlen, hrows⟩ := create_task_ok_shape heq
    intro x hx
    rw [hrows] at hx
    rcases List.mem_append.mp hx with hx | hx
    · exact ih x hx
    · rw [List.mem_singleton] at hx
      subst hx
      exact ne_empty_of_one_le_length hlen
  | @update now st req db0 db' id p t hr heq ih =>
    obtain ⟨cur, hmem, htitle, hval, hrows⟩ := update_task_ok_shape heq
    intro x hx
    rw [hrows] at hx
    obtain ⟨y, hy, hxy⟩ := List.mem_map.mp hx
    by_cases hid : y.id = id
    · rw [if_pos hid] at hxy
      subst hxy
      rw [htitle]
      cases hp : p.title with
      | none => simpa using ih cur hmem
      | some s =>
        have hs := hval s hp
        simpa using ne_empty_of_one_le_length hs
    · rw [if_neg hid] at hxy
      subst hxy
      exact ih y hy
  | @delete now st req db0 db' id hr heq ih =>
    obtain ⟨hrows, -⟩ := delete_task_ok_shape heq
    intro x hx
    rw [hrows] at hx
    exact ih x (List.mem_of_mem_filter hx)

/-- Witness for C8: the store reached by one create holds a task with a
non-empty title. -/
theorem reachable_titles_nonempty_witness :
    ({ id := 1, title := "a", completed := false, created_at := "t" }
      : Task).title ≠ "" :=
  reachable_titles_nonempty
    ⟨[{ id := 1, title := "a", completed := false, created_at := "t" }], 2⟩
    (@Reachable.create 0 "t" (mkAppState none true)
      { method := "POST", authHeader := none } ⟨[], 1⟩
      ⟨[{ id := 1, title := "a", completed := false, created_at := "t" }], 2⟩
      { title := "a" }
      { id := 1, title := "a", completed := false, created_at := "t" }
      Reachable.init (by decide))
    { id := 1, title := "a", completed := false, created_at := "t" }
    (by simp)

/-- C9: for every store state, `list_tasks` answers 200 with all stored
tasks ordered by id descending (empty when none exist); concretely, after
creating ids 1, 2, 3 in order, it returns them as 3, 2, 1. -/
theorem list_tasks_ordered_desc (db : Store) :
    (∃ l, list_tasks db = .ok l ∧ l.Perm db.rows ∧ l.Sorted idDesc) ∧
    list_tasks ⟨[], 1⟩ = .ok [] ∧
    create_task 0 "t" (mkAppState none true)
        { method := "POST", authHeader := none } ⟨[], 1⟩ { title := "a" } =
      .ok (⟨[⟨1, "a", false, "t"⟩], 2⟩, ⟨1, "a", false, "t"⟩) ∧
    create_task 0 "t" (mkAppState none true)
        { method := "POST", authHeader := none }
        ⟨[⟨1, "a", false, "t"⟩], 2⟩ { title := "b" } =
      .ok (⟨[⟨1, "a", false, "t"⟩, ⟨2, "b", false, "t"⟩], 3⟩,
           ⟨2, "b", false, "t"⟩) ∧
    create_task 0 "t" (mkAppState none true)
        { method := "POST", authHeader := none }
        ⟨[⟨1, "a", false, "t"⟩, ⟨2, "b", false, "t"⟩], 3⟩ { title := "c" } =
      .ok (⟨[⟨1, "a", false, "t"⟩, ⟨2, "b", false, "t"⟩,
             ⟨3, "c", false, "t"⟩], 4⟩, ⟨3, "c", false, "t"⟩) ∧
    list_tasks ⟨[⟨1, "a", false, "t"⟩, ⟨2, "b", false, "t"⟩,
                 ⟨3, "c", false, "t"⟩], 4⟩ =
      .ok [⟨3, "c", false, "t"⟩, ⟨2, "b", false, "t"⟩,
           ⟨1, "a", false, "t"⟩] := by
  refine ⟨⟨_, rfl, List.perm_insertionSort idDesc db.rows,
      List.sorted_insertionSort idDesc db.rows⟩, rfl, by decide, by decide,
      by decide, by decide⟩

end ActixTasks
